import Mathlib

/-!
Verification of the dev-server process manager (`processManager.ts`).

The manager keeps two maps keyed by project path (`processes`,
`detectedUrls`), spawns dev servers in three launch modes, scrapes a
readiness URL from output chunks, and kills servers by handle plus an
OS process-table sweep.  We embed the component shallowly: the two maps
become association lists, child-process spawning and OS queries become
an explicit environment record, and the URL extractor is implemented
character by character, mirroring the JavaScript regular expressions.
-/

namespace KodeDock

/-! ### Association-list model of the two `Map<string, _>` fields -/

def mapGet {α : Type} (m : List (String × α)) (k : String) : Option α :=
  match m with
  | [] => none
  | (k2, v) :: rest => if k2 = k then some v else mapGet rest k

def mapHas {α : Type} (m : List (String × α)) (k : String) : Bool :=
  (mapGet m k).isSome

def mapSet {α : Type} (m : List (String × α)) (k : String) (v : α) : List (String × α) :=
  match m with
  | [] => [(k, v)]
  | (k2, v2) :: rest => if k2 = k then (k, v) :: rest else (k2, v2) :: mapSet rest k v

def mapDelete {α : Type} (m : List (String × α)) (k : String) : List (String × α) :=
  match m with
  | [] => []
  | (k2, v2) :: rest => if k2 = k then mapDelete rest k else (k2, v2) :: mapDelete rest k

/-! ### `extractUrl`: character-level model of the regex pipeline

`extractUrl` first strips ANSI CSI sequences (`ESC [ digits/semicolons
letter`), then OSC sequences (`ESC ] ... BEL`), then all control
characters, and finally tries five URL patterns in fixed order.  The
strippers are written with an explicit fuel argument (always called
with fuel at least the list length, and each step consumes at least one
character, so the fuel-exhausted branch is unreachable); this keeps
them structurally recursive and hence computable by the kernel. -/

def isPatternDigit (c : Char) : Bool := '0' ≤ c && c ≤ '9'

def isAsciiAlpha (c : Char) : Bool := ('a' ≤ c && c ≤ 'z') || ('A' ≤ c && c ≤ 'Z')

/-- One global pass of `replace(/\x1B\[[0-9;]*[a-zA-Z]/g, "")`. -/
def stripCsiGo : Nat → List Char → List Char
  | 0, l => l
  | fuel+1, l =>
    match l with
    | [] => []
    | c :: rest =>
      if c = '\x1B' then
        match rest with
        | '[' :: rest2 =>
          match rest2.dropWhile (fun d => isPatternDigit d || d = ';') with
          | d :: rest4 =>
            if isAsciiAlpha d then stripCsiGo fuel rest4
            else c :: stripCsiGo fuel rest
          | [] => c :: stripCsiGo fuel rest
        | _ => c :: stripCsiGo fuel rest
      else c :: stripCsiGo fuel rest

/-- One global pass of `replace(/\x1B\][^\x07]*\x07/g, "")`. -/
def stripOscGo : Nat → List Char → List Char
  | 0, l => l
  | fuel+1, l =>
    match l with
    | [] => []
    | c :: rest =>
      if c = '\x1B' then
        match rest with
        | ']' :: rest2 =>
          match rest2.dropWhile (fun d => d ≠ '\x07') with
          | _ :: rest4 => stripOscGo fuel rest4
          | [] => c :: stripOscGo fuel rest
        | _ => c :: stripOscGo fuel rest
      else c :: stripOscGo fuel rest

/-- The class `[\x00-\x1F\x7F-\x9F]` of the third `replace`. -/
def isStrippedControl (c : Char) : Bool :=
  c.val ≤ 0x1F || (0x7F ≤ c.val && c.val ≤ 0x9F)

/-- The `cleanOutput` value of `extractUrl`: the three `replace` calls
applied in source order. -/
def cleanOutput (s : String) : List Char :=
  let l1 := stripCsiGo s.data.length s.data
  let l2 := stripOscGo l1.length l1
  l2.filter (fun c => !isStrippedControl c)

/-- The JavaScript whitespace set (`\s` of the regexes, and the set
removed by `String.prototype.trim`). -/
def isJsSpace (c : Char) : Bool :=
  c = ' ' || c = '\t' || c = '\n' || c.val = 0x0B || c.val = 0x0C || c = '\r' ||
  c.val = 0xA0 || c.val = 0x1680 ||
  (0x2000 ≤ c.val && c.val ≤ 0x200A) ||
  c.val = 0x2028 || c.val = 0x2029 || c.val = 0x202F || c.val = 0x205F ||
  c.val = 0x3000 || c.val = 0xFEFF

/-- Case-insensitive literal match (the `i` regex flag): consumes a
prefix of the input whose lowercase form equals `pat` (given in
lowercase), returning the consumed characters in original case together
with the remainder. -/
def matchCI : List Char → List Char → Option (List Char × List Char)
  | [], l => some ([], l)
  | _ :: _, [] => none
  | p :: ps, c :: cs =>
    if c.toLower = p then
      match matchCI ps cs with
      | some (m, r) => some (c :: m, r)
      | none => none
    else none

/-- Greedy `\d+`: at least one digit, as many as possible. -/
def takeDigits (l : List Char) : Option (List Char × List Char) :=
  match l.takeWhile isPatternDigit with
  | [] => none
  | ds => some (ds, l.dropWhile isPatternDigit)

/-- Match `https?://<host>:<digits>` at the current position
(patterns 1 to 3; the optional `s` is greedy with backtracking). -/
def matchSchemeHost (host : List Char) (l : List Char) : Option (List Char) :=
  match matchCI ['h', 't', 't', 'p'] l with
  | none => none
  | some (m1, r1) =>
    let tail := fun (pre : List Char) (r : List Char) =>
      match matchCI ([':', '/', '/'] ++ host ++ [':']) r with
      | none => none
      | some (m2, r2) =>
        match takeDigits r2 with
        | none => none
        | some (ds, _) => some (m1 ++ pre ++ m2 ++ ds)
    match r1 with
    | [] => none
    | c :: cs =>
      if c.toLower = 's' then
        match tail [c] cs with
        | some m => some m
        | none => tail [] r1
      else tail [] r1

/-- Match `(?:^|\s)(<host>:<digits>)(?:\s|$)` at the current position
(patterns 4 and 5).  The full regex match — which is what
`String.prototype.match` returns with the `g` flag — includes the
surrounding whitespace characters; `atStart` tells whether the current
position is the start of the string, where the `^` branch applies
(tried before the `\s` branch, as in leftmost-first alternation). -/
def matchBareAt (host : List Char) (l : List Char) (atStart : Bool) : Option (List Char) :=
  let core := fun (pre : List Char) (r : List Char) =>
    match matchCI (host ++ [':']) r with
    | none => none
    | some (m, r2) =>
      match takeDigits r2 with
      | none => none
      | some (ds, r3) =>
        match r3 with
        | [] => some (pre ++ m ++ ds)
        | c :: _ => if isJsSpace c then some (pre ++ m ++ ds ++ [c]) else none
  match (if atStart then core [] l else none) with
  | some m => some m
  | none =>
    match l with
    | [] => none
    | c :: cs => if isJsSpace c then core [c] cs else none

/-- Leftmost match: try the pattern at position 0, 1, ... and return the
first success (the semantics of `String.prototype.match(re)[0]` with a
global regex).  Fuel is the number of remaining start positions. -/
def scanFirstGo (p : List Char → Bool → Option (List Char)) :
    Nat → List Char → Bool → Option (List Char)
  | 0, _, _ => none
  | fuel+1, l, atStart =>
    match p l atStart with
    | some m => some m
    | none =>
      match l with
      | [] => none
      | _ :: rest => scanFirstGo p fuel rest false

def scanFirst (p : List Char → Bool → Option (List Char)) (l : List Char) :
    Option (List Char) :=
  scanFirstGo p (l.length + 1) l true

def matchHttpLocalhost (l : List Char) (_ : Bool) : Option (List Char) :=
  matchSchemeHost "localhost".data l

def matchHttpLoopback (l : List Char) (_ : Bool) : Option (List Char) :=
  matchSchemeHost "127.0.0.1".data l

def matchHttpIpv6 (l : List Char) (_ : Bool) : Option (List Char) :=
  matchSchemeHost "[::1]".data l

def matchBareLocalhost (l : List Char) (b : Bool) : Option (List Char) :=
  matchBareAt "localhost".data l b

def matchBareLoopback (l : List Char) (b : Bool) : Option (List Char) :=
  matchBareAt "127.0.0.1".data l b

/-- The `urlPatterns` array, in source order. -/
def urlPatterns : List (List Char → Bool → Option (List Char)) :=
  [matchHttpLocalhost, matchHttpLoopback, matchHttpIpv6,
   matchBareLocalhost, matchBareLoopback]

/-- Model of `String.prototype.trim` on the matched text. -/
def trimJs (l : List Char) : List Char :=
  ((l.dropWhile isJsSpace).reverse.dropWhile isJsSpace).reverse

/-- Model of `url.startsWith("http")` — case sensitive, unlike the matching. -/
def startsWithHttp : List Char → Bool
  | 'h' :: 't' :: 't' :: 'p' :: _ => true
  | _ => false

/-- Model of `url.replace(/\/$/, "")`: drop one trailing slash. -/
def dropTrailingSlash (l : List Char) : List Char :=
  match l.reverse with
  | '/' :: r => r.reverse
  | _ => l

/-- The normalization applied to the first match: trim, prepend
`http://` when no `http` prefix, drop one trailing slash. -/
def normalizeUrl (m : List Char) : List Char :=
  let t := trimJs m
  let t2 := if startsWithHttp t then t else "http://".data ++ t
  dropTrailingSlash t2

/-- The `for (const pattern of urlPatterns)` loop: first pattern with a
match wins. -/
def findUrlMatch : List (List Char → Bool → Option (List Char)) → List Char →
    Option (List Char)
  | [], _ => none
  | p :: ps, clean =>
    match scanFirst p clean with
    | some m => some m
    | none => findUrlMatch ps clean

/-- Model of `ProcessManager.extractUrl`. -/
def extractUrl (s : String) : Option String :=
  (findUrlMatch urlPatterns (cleanOutput s)).map (fun m => String.mk (normalizeUrl m))

/-! ### The process registry and the public operations

A `ChildProcess` handle is reduced to what the manager reads from it:
the optional `pid` and the `killed` flag.  The spawner, the OS command
runner and `JSON.parse` are collaborators outside the component; each
operation takes an environment record describing their outcomes for the
duration of the call. -/

structure Handle where
  pid : Option Nat
  killed : Bool
deriving DecidableEq

/-- The two private `Map` fields of `ProcessManager`. -/
structure PMState where
  processes : List (String × Handle)
  detectedUrls : List (String × String)
deriving DecidableEq

structure StartResult where
  success : Bool
  error : Option String
  url : Option String
deriving DecidableEq

structure KillResult where
  success : Bool
  error : Option String
deriving DecidableEq

def alreadyRunningMsg : String := "A dev server is already running for this project"
def noPidMsg : String := "Failed to start process - no PID assigned"
def noTermMsg : String :=
  "Could not find a compatible terminal emulator. Please install gnome-terminal, konsole, or xterm."
def unixNoMatchMsg : String := "No running process found for this project"
def winNoMatchMsg : String := "No running dev server found for this project"
def winParseFailMsg : String := "Failed to parse process list"
def winKillFailMsg : String := "Found processes but failed to kill them"

/-- Environment of one `startDevServer` call: platform tag plus the
outcome of each possible `spawn` (an `Except.error` models a
synchronously thrown exception). -/
structure StartEnv where
  platform : String
  termSpawnThrows : Option String
  linuxTermThrows : String → Bool
  bgSpawn : Except String Handle
  detectorSpawn : Except String Handle

structure TerminalSpec where
  cmd : String
  args : List String

/-- The Linux terminal-emulator candidates, in source order. -/
def linuxTerminals (projectPath command : String) : List TerminalSpec :=
  [ { cmd := "gnome-terminal",
      args := ["--working-directory", projectPath, "--", "bash", "-c",
               command ++ "; exec bash"] },
    { cmd := "konsole",
      args := ["--workdir", projectPath, "-e",
               "bash -c \"" ++ command ++ "; exec bash\""] },
    { cmd := "xterm",
      args := ["-e", "cd \"" ++ projectPath ++ "\" && " ++ command ++ "; bash"] } ]

/-- Model of `ProcessManager.launchInTerminal`.  Besides the result we record
which terminal program was spawned (observing the preference order). -/
def launchInTerminal (env : StartEnv) (projectPath command : String) :
    KillResult × Option String :=
  if env.platform = "win32" then
    match env.termSpawnThrows with
    | some e => ({ success := false, error := some ("Failed to launch terminal: " ++ e) }, none)
    | none => ({ success := true, error := none }, some "cmd.exe")
  else if env.platform = "darwin" then
    match env.termSpawnThrows with
    | some e => ({ success := false, error := some ("Failed to launch terminal: " ++ e) }, none)
    | none => ({ success := true, error := none }, some "osascript")
  else
    match (linuxTerminals projectPath command).find? (fun t => !env.linuxTermThrows t.cmd) with
    | some t => ({ success := true, error := none }, some t.cmd)
    | none => ({ success := false, error := some noTermMsg }, none)

/-- Model of `ProcessManager.startDevServer`.  Returns the result, the state
after the synchronous part of the call, and whether a silent URL
detector process was spawned (`detectAndOpenUrl`). -/
def startDevServer (env : StartEnv) (st : PMState)
    (projectPath command : String) (openInBrowser openInTerminal : Bool) :
    StartResult × PMState × Bool :=
  if mapHas st.processes projectPath then
    ({ success := false, error := some alreadyRunningMsg, url := none }, st, false)
  else if openInTerminal then
    let r := (launchInTerminal env projectPath command).1
    if !r.success then
      ({ success := r.success, error := r.error, url := none }, st, false)
    else if openInBrowser then
      match env.detectorSpawn with
      | .error e =>
        ({ success := false, error := some ("Failed to start dev server: " ++ e),
           url := none }, st, false)
      | .ok _ => ({ success := true, error := none, url := none }, st, true)
    else ({ success := true, error := none, url := none }, st, false)
  else
    match env.bgSpawn with
    | .error e =>
      ({ success := false, error := some ("Failed to start dev server: " ++ e),
         url := none }, st, false)
    | .ok h =>
      if h.pid = none then
        ({ success := false, error := some noPidMsg, url := none }, st, false)
      else
        ({ success := true, error := none, url := mapGet st.detectedUrls projectPath },
         { st with processes := mapSet st.processes projectPath h }, false)

/-- The `exit` and `error` handlers installed by `launchInBackground`:
both delete the tracked handle and the detected URL. -/
def onBgExit (st : PMState) (projectPath : String) : PMState :=
  { processes := mapDelete st.processes projectPath,
    detectedUrls := mapDelete st.detectedUrls projectPath }

/-! ### Termination and liveness: `killProcess`, `isProcessRunning` -/

/-- Model of `String.prototype.trim`. -/
def strTrim (s : String) : String := String.mk (trimJs s.data)

/-- Model of `split("\n")` at the character level (structural, so the kernel can
evaluate it): pieces between newline separators, empty pieces kept. -/
def splitLines : List Char → List (List Char)
  | [] => [[]]
  | c :: rest =>
    if c = '\n' then [] :: splitLines rest
    else
      match splitLines rest with
      | [] => [[c]]
      | h :: t => (c :: h) :: t

theorem splitLines_ne_nil (l : List Char) : splitLines l ≠ [] := by
  cases l with
  | nil => simp [splitLines]
  | cons c rest =>
    by_cases h : c = '\n'
    · simp [splitLines, h]
    · simp only [splitLines, h, if_false]
      cases splitLines rest <;> simp

/-- Split on whitespace runs, empty pieces kept (to be filtered). -/
def splitWsGo : List Char → List (List Char)
  | [] => [[]]
  | c :: rest =>
    if isJsSpace c then [] :: splitWsGo rest
    else
      match splitWsGo rest with
      | [] => [[c]]
      | h :: t => (c :: h) :: t

/-- Model of `line.split(/\s+/)` on an already-trimmed line: whitespace runs
separate tokens, and no empty tokens arise. -/
def splitWs (s : String) : List String :=
  ((splitWsGo s.data).map String.mk).filter (fun t => t ≠ "")

/-- Case-sensitive prefix test on character lists. -/
def listStartsWith : List Char → List Char → Bool
  | [], _ => true
  | _ :: _, [] => false
  | p :: ps, c :: cs => p = c && listStartsWith ps cs

/-- Model of `hay.includes(needle)` — substring containment. -/
def listIncludes (needle hay : List Char) : Bool :=
  match hay with
  | [] => listStartsWith needle []
  | _ :: rest => listStartsWith needle hay || listIncludes needle rest

/-- Model of `s.toLowerCase().replace(/\\/g, "/")` — the normalization applied
to the project path and to each command line on Windows. -/
def normalizeWinPath (s : String) : String :=
  String.mk (s.data.map (fun c => if c.toLower = '\\' then '/' else c.toLower))

/-- One `{ProcessId, CommandLine}` pair from the PowerShell query. -/
structure WinProc where
  processId : Nat
  commandLine : String
deriving DecidableEq

/-- Environment of one `killProcess` / `isProcessRunning` call: platform
tag, the outcomes of the one-shot OS commands (`Except.error` models a
rejected `execAsync`), the `JSON.parse` oracle for the PowerShell
output, and the outcome of each individual kill. -/
structure OsEnv where
  platform : String
  handleKillThrows : Option String
  unixPs : Except String String
  winPs : Except String String
  winParse : String → Option (List WinProc)
  unixKillOk : String → Bool
  winKillOk : Nat → Bool

/-- The PID column extracted from each `ps aux` line: `parts[1]` of the
whitespace-split trimmed line, kept when truthy (nonempty). -/
def unixPids (stdout : String) : List String :=
  ((splitLines (strTrim stdout).data).map String.mk).filterMap
    (fun line => (splitWs (strTrim line)).get? 1)

/-- Model of `ProcessManager.killUnixProcess`.  Also returns the PIDs whose kill
was attempted: individual kill failures are logged, never surfaced, and
the result is success whenever the `ps` scan returned any line. -/
def killUnixProcess (env : OsEnv) (st : PMState) (projectPath : String) :
    KillResult × PMState × List String :=
  match env.unixPs with
  | .error _ => ({ success := false, error := some unixNoMatchMsg }, st, [])
  | .ok stdout =>
    let lines := (splitLines (strTrim stdout).data).map String.mk
    if lines.length = 0 || strTrim stdout = "" then
      ({ success := false, error := some unixNoMatchMsg }, st, [])
    else
      ({ success := true, error := none },
       { st with processes := mapDelete st.processes projectPath },
       unixPids stdout)

/-- The `pidsToKill` loop of `killWindowsProcess`: PIDs of parsed
entries with truthy fields whose normalized command line contains the
normalized project path. -/
def winMatchedPids (procs : List WinProc) (projectPath : String) : List Nat :=
  (procs.filter (fun p =>
      p.processId ≠ 0 && p.commandLine ≠ "" &&
      listIncludes (normalizeWinPath projectPath).data
        (normalizeWinPath p.commandLine).data)).map
    (fun p => p.processId)

/-- Model of `ProcessManager.killWindowsProcess`.  Also returns the PIDs that
were successfully killed. -/
def killWindowsProcess (env : OsEnv) (st : PMState) (projectPath : String) :
    KillResult × PMState × List Nat :=
  match env.winPs with
  | .error e =>
    ({ success := false, error := some ("Failed to query processes: " ++ e) }, st, [])
  | .ok stdout =>
    if strTrim stdout = "" then
      ({ success := false, error := some winNoMatchMsg }, st, [])
    else
      match env.winParse stdout with
      | none => ({ success := false, error := some winParseFailMsg }, st, [])
      | some procs =>
        let pidsToKill := winMatchedPids procs projectPath
        if pidsToKill.length = 0 then
          ({ success := false, error := some winNoMatchMsg }, st, [])
        else
          let killed := pidsToKill.filter env.winKillOk
          if killed.length > 0 then
            ({ success := true, error := none },
             { st with processes := mapDelete st.processes projectPath }, killed)
          else
            ({ success := false, error := some winKillFailMsg }, st, killed)

/-- Step 2 of `killProcess`: the platform-selected OS sweep. -/
def killSweep (env : OsEnv) (st : PMState) (projectPath : String) :
    KillResult × PMState :=
  if env.platform = "win32" then
    ((killWindowsProcess env st projectPath).1, (killWindowsProcess env st projectPath).2.1)
  else
    ((killUnixProcess env st projectPath).1, (killUnixProcess env st projectPath).2.1)

/-- Model of `ProcessManager.killProcess`: kill the live tracked handle and
delete its entry, then return the OS sweep's verdict.  A throwing
`ChildProcess.kill` lands in the outer catch before the delete. -/
def killProcess (env : OsEnv) (st : PMState) (projectPath : String) :
    KillResult × PMState :=
  match mapGet st.processes projectPath with
  | some h =>
    if !h.killed then
      match env.handleKillThrows with
      | some e => ({ success := false, error := some ("Failed to kill process: " ++ e) }, st)
      | none =>
        killSweep env { st with processes := mapDelete st.processes projectPath } projectPath
    else killSweep env st projectPath
  | none => killSweep env st projectPath

/-- Model of `ProcessManager.isWindowsProcessRunning` (its `catch` branches
return `false`). -/
def isWindowsProcessRunning (env : OsEnv) (projectPath : String) : Bool :=
  match env.winPs with
  | .error _ => false
  | .ok stdout =>
    if strTrim stdout = "" then false
    else
      match env.winParse stdout with
      | none => false
      | some procs =>
        procs.any (fun p =>
          p.commandLine ≠ "" &&
          listIncludes (normalizeWinPath projectPath).data
            (normalizeWinPath p.commandLine).data)

/-- Model of `ProcessManager.isUnixProcessRunning`. -/
def isUnixProcessRunning (env : OsEnv) (_projectPath : String) : Bool :=
  match env.unixPs with
  | .error _ => false
  | .ok stdout => (strTrim stdout).length != 0

/-- Model of `ProcessManager.isProcessRunning`: live tracked handle, else
platform-selected OS scan, with every failure recovered as `false`. -/
def isProcessRunning (env : OsEnv) (st : PMState) (projectPath : String) : Bool :=
  match mapGet st.processes projectPath with
  | some h =>
    if !h.killed then true
    else if env.platform = "win32" then isWindowsProcessRunning env projectPath
    else isUnixProcessRunning env projectPath
  | none =>
    if env.platform = "win32" then isWindowsProcessRunning env projectPath
    else isUnixProcessRunning env projectPath

/-- Model of `ProcessManager.getUrl`. -/
def getUrl (st : PMState) (projectPath : String) : Option String :=
  mapGet st.detectedUrls projectPath

/-! ### The two URL-detection callbacks

`setupUrlDetection` (background mode) and `detectAndOpenUrl` (the
silent detector of terminal-hybrid mode) both close over a `urlFound`
latch and feed every stdout/stderr chunk to `extractUrl`.  We model a
detection session as a state machine over the events its callbacks
handle; the `assignments` field is ghost instrumentation counting the
`detectedUrls.set` calls. -/

def urlDetectionTimeout : Nat := 30000

structure BgDetState where
  urlFound : Bool
  assignments : Nat
deriving DecidableEq

def bgDetInit : BgDetState := { urlFound := false, assignments := 0 }

/-- The `processOutput` closure of `setupUrlDetection`: ignore
everything once `urlFound` is set; otherwise store the first extracted
URL (and hand it to the external browser opener, which has no effect on
this state). -/
def bgProcessOutput (projectPath : String) (s : PMState × BgDetState) (chunk : String) :
    PMState × BgDetState :=
  if s.2.urlFound then s
  else
    match extractUrl chunk with
    | some url =>
      ({ s.1 with detectedUrls := mapSet s.1.detectedUrls projectPath url },
       { urlFound := true, assignments := s.2.assignments + 1 })
    | none => s

def bgProcessChunks (projectPath : String) (s : PMState × BgDetState)
    (chunks : List String) : PMState × BgDetState :=
  chunks.foldl (bgProcessOutput projectPath) s

/-- Events a detection session can receive. -/
inductive DetEvent where
  | output (chunk : String)
  | timeout
  | exited
  | errored

/-- Events of a background-mode session.  `setupUrlDetection` installs
no timer, so a `timeout` event has no handler and changes nothing; the
`exit`/`error` handlers of `launchInBackground` delete both registry
entries. -/
def bgStep (projectPath : String) (s : PMState × BgDetState) (e : DetEvent) :
    PMState × BgDetState :=
  match e with
  | .output chunk => bgProcessOutput projectPath s chunk
  | .timeout => s
  | .exited => (onBgExit s.1 projectPath, s.2)
  | .errored => (onBgExit s.1 projectPath, s.2)

def bgRun (projectPath : String) (s : PMState × BgDetState) (es : List DetEvent) :
    PMState × BgDetState :=
  es.foldl (bgStep projectPath) s

/-- State of the silent detector of `detectAndOpenUrl`: the `urlFound`
latch, the detector process's `killed` flag, and whether the 30 s
`setTimeout` is still pending. -/
structure HybridDetState where
  urlFound : Bool
  detectorKilled : Bool
  timerActive : Bool
deriving DecidableEq

def hybridDetInit : HybridDetState :=
  { urlFound := false, detectorKilled := false, timerActive := true }

/-- One event of a `detectAndOpenUrl` session.  On the first matching
chunk: store the URL, clear the timer, kill the detector.  On timer
expiry with no match yet: kill the detector (silently — no result is
produced).  On detector exit or error: clear the timer. -/
def hybridStep (projectPath : String) (s : PMState × HybridDetState) (e : DetEvent) :
    PMState × HybridDetState :=
  match e with
  | .output chunk =>
    if s.2.urlFound then s
    else
      match extractUrl chunk with
      | some url =>
        ({ s.1 with detectedUrls := mapSet s.1.detectedUrls projectPath url },
         { urlFound := true, detectorKilled := true, timerActive := false })
      | none => s
  | .timeout =>
    if s.2.timerActive then
      if !s.2.urlFound && !s.2.detectorKilled then
        (s.1, { s.2 with detectorKilled := true, timerActive := false })
      else (s.1, { s.2 with timerActive := false })
    else s
  | .exited => (s.1, { s.2 with timerActive := false })
  | .errored => (s.1, { s.2 with timerActive := false })

def hybridRun (projectPath : String) (s : PMState × HybridDetState)
    (es : List DetEvent) : PMState × HybridDetState :=
  es.foldl (hybridStep projectPath) s

/-! ### Helper lemmas on the association-list maps -/

theorem mapGet_set_self {α : Type} (m : List (String × α)) (k : String) (v : α) :
    mapGet (mapSet m k v) k = some v := by
  induction m with
  | nil => simp [mapSet, mapGet]
  | cons hd tl ih =>
    obtain ⟨k2, v2⟩ := hd
    by_cases h : k2 = k
    · simp [mapSet, h, mapGet]
    · simp [mapSet, h, mapGet, ih]

theorem mapGet_delete_self {α : Type} (m : List (String × α)) (k : String) :
    mapGet (mapDelete m k) k = none := by
  induction m with
  | nil => simp [mapDelete, mapGet]
  | cons hd tl ih =>
    obtain ⟨k2, v2⟩ := hd
    by_cases h : k2 = k
    · simp [mapDelete, h, ih]
    · simp [mapDelete, h, mapGet, ih]

/-! ### Claim theorems -/

/-- C7: URL extraction and normalization on concrete chunks: the chunk
`"Local: http://localhost:3000/\n"` yields `http://localhost:3000`
(scheme kept, no trailing slash), the schemeless chunk
`"ready on 127.0.0.1:8080"` yields `http://127.0.0.1:8080`
(`http://` prepended), and the ANSI-colored chunk
`"\x1b[32mhttp://localhost:4000\x1b[0m"` yields
`http://localhost:4000` (escape sequences stripped before matching). -/
theorem extractUrl_normalization_examples :
    extractUrl "Local: http://localhost:3000/\n" = some "http://localhost:3000" ∧
    extractUrl "ready on 127.0.0.1:8080" = some "http://127.0.0.1:8080" ∧
    extractUrl "\x1b[32mhttp://localhost:4000\x1b[0m" = some "http://localhost:4000" :=
  ⟨by decide, by decide, by decide⟩

/-- C6: after cleaning, `extractUrl` tests the five patterns in the
fixed priority order `http(s)://localhost:<port>`,
`http(s)://127.0.0.1:<port>`, `http(s)://[::1]:<port>`, bare
`localhost:<port>`, bare `127.0.0.1:<port>`; the first pattern with any
match wins (its leftmost match is the one normalized and returned),
even when a lower-priority pattern matches earlier in the chunk, and
within one pattern the leftmost occurrence wins. -/
theorem extractUrl_priority_order :
    (∀ s : String,
      extractUrl s =
        (match scanFirst matchHttpLocalhost (cleanOutput s) with
         | some m => some (String.mk (normalizeUrl m))
         | none =>
           match scanFirst matchHttpLoopback (cleanOutput s) with
           | some m => some (String.mk (normalizeUrl m))
           | none =>
             match scanFirst matchHttpIpv6 (cleanOutput s) with
             | some m => some (String.mk (normalizeUrl m))
             | none =>
               match scanFirst matchBareLocalhost (cleanOutput s) with
               | some m => some (String.mk (normalizeUrl m))
               | none =>
                 match scanFirst matchBareLoopback (cleanOutput s) with
                 | some m => some (String.mk (normalizeUrl m))
                 | none => none)) ∧
    extractUrl "visit 127.0.0.1:9999 then http://localhost:3000" =
      some "http://localhost:3000" ∧
    extractUrl "go to http://localhost:1111 or http://localhost:2222" =
      some "http://localhost:1111" := by
  refine ⟨fun s => ?_, by decide, by decide⟩
  simp only [extractUrl, urlPatterns, findUrlMatch]
  cases scanFirst matchHttpLocalhost (cleanOutput s) <;>
    cases hb : scanFirst matchHttpLoopback (cleanOutput s) <;>
      cases hc : scanFirst matchHttpIpv6 (cleanOutput s) <;>
        cases hd : scanFirst matchBareLocalhost (cleanOutput s) <;>
          cases he : scanFirst matchBareLoopback (cleanOutput s) <;>
            simp [hb, hc, hd, he]

/-- A successful background-mode start registers a handle under the key. -/
theorem bg_success_registers (env : StartEnv) (st : PMState) (p c : String) (ob : Bool)
    (h : (startDevServer env st p c ob false).1.success = true) :
    mapHas (startDevServer env st p c ob false).2.1.processes p = true := by
  by_cases hh : mapHas st.processes p
  · simp [startDevServer, hh] at h
  · cases henv : env.bgSpawn with
    | error e => simp [startDevServer, hh, henv] at h
    | ok hd =>
      by_cases hp : hd.pid = none
      · simp [startDevServer, hh, henv, hp] at h
      · have hh2 : (mapGet st.processes p).isSome = false := by
          simpa [mapHas] using hh
        simp [startDevServer, hh2, henv, hp, mapHas, mapGet_set_self]

/-- C1: starting a dev server for a key that already has a registry
entry fails with the `AlreadyRunning` error and has no side effects on
the registry (state returned unchanged, no detector spawned); hence
after a successful background start of a key, a second start of the
same key — in any launch mode — returns `AlreadyRunning` and leaves the
registry, in particular the tracked handle, exactly as it was. -/
theorem startDevServer_duplicate_rejected :
    (∀ (env : StartEnv) (st : PMState) (p c : String) (ob ot : Bool),
      mapHas st.processes p = true →
      startDevServer env st p c ob ot =
        ({ success := false, error := some alreadyRunningMsg, url := none }, st, false)) ∧
    (∀ (env1 env2 : StartEnv) (st : PMState) (p c1 c2 : String) (ob1 ob2 ot2 : Bool),
      (startDevServer env1 st p c1 ob1 false).1.success = true →
      startDevServer env2 (startDevServer env1 st p c1 ob1 false).2.1 p c2 ob2 ot2 =
        ({ success := false, error := some alreadyRunningMsg, url := none },
         (startDevServer env1 st p c1 ob1 false).2.1, false)) := by
  have base : ∀ (env : StartEnv) (st : PMState) (p c : String) (ob ot : Bool),
      mapHas st.processes p = true →
      startDevServer env st p c ob ot =
        ({ success := false, error := some alreadyRunningMsg, url := none }, st, false) := by
    intro env st p c ob ot h
    simp [startDevServer, h]
  exact ⟨base, fun env1 env2 st p c1 c2 ob1 ob2 ot2 h =>
    base env2 _ p c2 ob2 ot2 (bg_success_registers env1 st p c1 ob1 h)⟩

def handleA : Handle := { pid := some 42, killed := false }

def stWithP : PMState :=
  { processes := [("/home/u/proj", handleA)], detectedUrls := [] }

def envBgOk : StartEnv :=
  { platform := "linux", termSpawnThrows := none,
    linuxTermThrows := fun _ => false,
    bgSpawn := .ok handleA,
    detectorSpawn := .ok { pid := some 43, killed := false } }

/-- Witness for C1 at a concrete registry state holding an entry. -/
theorem startDevServer_duplicate_rejected_witness :
    startDevServer envBgOk stWithP "/home/u/proj" "npm run dev" true false =
      ({ success := false, error := some alreadyRunningMsg, url := none }, stWithP, false) :=
  startDevServer_duplicate_rejected.1 envBgOk stWithP "/home/u/proj" "npm run dev"
    true false (by decide)

/-- Any failing `startDevServer` leaves the state unchanged and spawns
no detector. -/
theorem start_fail_invariant (env : StartEnv) (st : PMState) (p c : String)
    (ob ot : Bool) (h : (startDevServer env st p c ob ot).1.success = false) :
    (startDevServer env st p c ob ot).2.1 = st ∧
    (startDevServer env st p c ob ot).2.2 = false := by
  by_cases hh : mapHas st.processes p
  · simp [startDevServer, hh]
  · cases ot with
    | true =>
      cases hr : (launchInTerminal env p c).1.success with
      | false => simp [startDevServer, hh, hr]
      | true =>
        cases ob with
        | false => simp [startDevServer, hh, hr] at h
        | true =>
          cases henv : env.detectorSpawn with
          | error e => simp [startDevServer, hh, hr, henv]
          | ok hd => simp [startDevServer, hh, hr, henv] at h
    | false =>
      cases henv : env.bgSpawn with
      | error e => simp [startDevServer, hh, henv]
      | ok hd =>
        by_cases hp : hd.pid = none
        · simp [startDevServer, hh, henv, hp]
        · simp [startDevServer, hh, henv, hp] at h

/-- C10: failure atomicity of start — whenever `startDevServer` returns
`success = false` (duplicate key, spawn without PID, no Linux terminal
emulator, or a caught launch exception), the tracked-process map and
the detected-URL map are exactly as they were before the call; and in
background mode a spawn that yields a handle without a PID produces the
`NoPidAssigned` failure, the handle being registered only after the PID
check succeeds. -/
theorem startDevServer_failure_atomic (env : StartEnv) (st : PMState)
    (p c : String) (ob ot : Bool)
    (h : (startDevServer env st p c ob ot).1.success = false) :
    (startDevServer env st p c ob ot).2.1 = st ∧
    (∀ hd, env.bgSpawn = .ok hd → hd.pid = none → mapHas st.processes p = false →
      (startDevServer env st p c ob false).1 =
        { success := false, error := some noPidMsg, url := none }) := by
  refine ⟨(start_fail_invariant env st p c ob ot h).1, ?_⟩
  intro hd hspawn hpid hh
  simp [startDevServer, hh, hspawn, hpid]

def envNoPid : StartEnv :=
  { platform := "linux", termSpawnThrows := none,
    linuxTermThrows := fun _ => false,
    bgSpawn := .ok { pid := none, killed := false },
    detectorSpawn := .ok { pid := some 43, killed := false } }

def stEmpty : PMState := { processes := [], detectedUrls := [] }

/-- Witness for C10: a background spawn that yields no PID fails with
`NoPidAssigned` and leaves the (empty) state unchanged. -/
theorem startDevServer_failure_atomic_witness :
    (startDevServer envNoPid stEmpty "/home/u/proj" "npm run dev" true false).2.1 =
      stEmpty ∧
    (startDevServer envNoPid stEmpty "/home/u/proj" "npm run dev" true false).1 =
      { success := false, error := some noPidMsg, url := none } := by
  have h := startDevServer_failure_atomic envNoPid stEmpty "/home/u/proj" "npm run dev"
    true false (by decide)
  exact ⟨h.1, h.2 { pid := none, killed := false } rfl rfl (by decide)⟩

/-- The generic launch-failure message can never be the
`NoTerminalEmulator` message. -/
theorem launchFail_ne_noTerm (e : String) :
    "Failed to launch terminal: " ++ e ≠ noTermMsg := by
  intro h
  have h2 : ("Failed to launch terminal: " ++ e).data.head? = noTermMsg.data.head? :=
    congrArg (fun s => s.data.head?) h
  have h3 : ("Failed to launch terminal: " ++ e).data.head? = some 'F' := rfl
  have h4 : noTermMsg.data.head? = some 'C' := rfl
  rw [h3, h4] at h2
  exact (by decide : ¬ (some 'F' = some 'C')) h2

/-- C4: with `openInTerminal = true` on Linux the manager tries
`gnome-terminal`, `konsole`, `xterm` in that fixed order and the first
spawnable one wins; the result is the `NoTerminalEmulator` failure
exactly when none of the three can be spawned; that error cannot arise
on Windows or macOS; and in the failure case `startDevServer` returns
the error without spawning the silent URL-detector process even when
`openInBrowser = true`. -/
theorem launchInTerminal_linux_fallback :
    (∀ (env : StartEnv) (p c : String), env.platform = "linux" →
      launchInTerminal env p c =
        if !env.linuxTermThrows "gnome-terminal" then
          ({ success := true, error := none }, some "gnome-terminal")
        else if !env.linuxTermThrows "konsole" then
          ({ success := true, error := none }, some "konsole")
        else if !env.linuxTermThrows "xterm" then
          ({ success := true, error := none }, some "xterm")
        else ({ success := false, error := some noTermMsg }, none)) ∧
    (∀ (env : StartEnv) (p c : String),
      env.platform = "win32" ∨ env.platform = "darwin" →
      (launchInTerminal env p c).1.error ≠ some noTermMsg) ∧
    (∀ (env : StartEnv) (st : PMState) (p c : String) (ob : Bool),
      env.platform = "linux" →
      env.linuxTermThrows "gnome-terminal" = true →
      env.linuxTermThrows "konsole" = true →
      env.linuxTermThrows "xterm" = true →
      mapHas st.processes p = false →
      startDevServer env st p c ob true =
        ({ success := false, error := some noTermMsg, url := none }, st, false)) := by
  have order : ∀ (env : StartEnv) (p c : String), env.platform = "linux" →
      launchInTerminal env p c =
        if !env.linuxTermThrows "gnome-terminal" then
          ({ success := true, error := none }, some "gnome-terminal")
        else if !env.linuxTermThrows "konsole" then
          ({ success := true, error := none }, some "konsole")
        else if !env.linuxTermThrows "xterm" then
          ({ success := true, error := none }, some "xterm")
        else ({ success := false, error := some noTermMsg }, none) := by
    intro env p c hplat
    rcases h1 : env.linuxTermThrows "gnome-terminal" <;>
      rcases h2 : env.linuxTermThrows "konsole" <;>
        rcases h3 : env.linuxTermThrows "xterm" <;>
          simp [launchInTerminal, hplat, linuxTerminals, List.find?, h1, h2, h3]
  refine ⟨order, ?_, ?_⟩
  · intro env p c hplat
    rcases hplat with hplat | hplat
    · cases ht : env.termSpawnThrows with
      | none => simp [launchInTerminal, hplat, ht]
      | some e => simp [launchInTerminal, hplat, ht, launchFail_ne_noTerm e]
    · cases ht : env.termSpawnThrows with
      | none => simp [launchInTerminal, hplat, ht]
      | some e => simp [launchInTerminal, hplat, ht, launchFail_ne_noTerm e]
  · intro env st p c ob hplat h1 h2 h3 hh
    have hlaunch := order env p c hplat
    rw [h1, h2, h3] at hlaunch
    simp only [Bool.not_true, Bool.false_eq_true, if_false] at hlaunch
    simp [startDevServer, hh, hlaunch]

def envNoTerms : StartEnv :=
  { platform := "linux", termSpawnThrows := none,
    linuxTermThrows := fun _ => true,
    bgSpawn := .ok handleA,
    detectorSpawn := .ok { pid := some 43, killed := false } }

/-- Witness for C4: Linux with no spawnable terminal emulator — the
hybrid start fails with `NoTerminalEmulator` and spawns no detector. -/
theorem launchInTerminal_linux_fallback_witness :
    startDevServer envNoTerms stEmpty "/home/u/proj" "npm run dev" true true =
      ({ success := false, error := some noTermMsg, url := none }, stEmpty, false) :=
  launchInTerminal_linux_fallback.2.2 envNoTerms stEmpty "/home/u/proj" "npm run dev"
    true rfl rfl rfl rfl (by decide)

/-- Chunks without a matching URL leave a not-yet-latched session
unchanged. -/
theorem bgChunks_no_match (key : String) (s : PMState × BgDetState)
    (chunks : List String) (h : ∀ x ∈ chunks, extractUrl x = none) :
    bgProcessChunks key s chunks = s := by
  induction chunks with
  | nil => rfl
  | cons hd tl ih =>
    have hhd : extractUrl hd = none := h hd (List.mem_cons_self hd tl)
    have hs : bgProcessOutput key s hd = s := by
      by_cases hf : s.2.urlFound
      · simp [bgProcessOutput, hf]
      · simp [bgProcessOutput, hf, hhd]
    calc bgProcessChunks key s (hd :: tl)
        = bgProcessChunks key (bgProcessOutput key s hd) tl := rfl
      _ = bgProcessChunks key s tl := by rw [hs]
      _ = s := ih (fun x hx => h x (List.mem_cons_of_mem hd hx))

/-- Once the latch is set, every further chunk is ignored. -/
theorem bgChunks_after_found (key : String) (s : PMState × BgDetState)
    (chunks : List String) (h : s.2.urlFound = true) :
    bgProcessChunks key s chunks = s := by
  induction chunks with
  | nil => rfl
  | cons hd tl ih =>
    calc bgProcessChunks key s (hd :: tl)
        = bgProcessChunks key (bgProcessOutput key s hd) tl := rfl
      _ = bgProcessChunks key s tl := by rw [show bgProcessOutput key s hd = s by
            simp [bgProcessOutput, h]]
      _ = s := ih

/-- C5: per session, URL detection assigns `detectedUrl` at most once —
for a chunk sequence whose first matching chunk is `c` (extracting
`u`), the session performs exactly one `detectedUrls.set`, stores the
URL of that first matching chunk, and ignores every later chunk even if
it also contains a matching URL. -/
theorem urlDetection_latch_once (key : String) (st : PMState)
    (pre post : List String) (c u : String)
    (hpre : ∀ x ∈ pre, extractUrl x = none)
    (hc : extractUrl c = some u) :
    bgProcessChunks key (st, bgDetInit) (pre ++ c :: post) =
      ({ st with detectedUrls := mapSet st.detectedUrls key u },
       { urlFound := true, assignments := 1 }) ∧
    getUrl (bgProcessChunks key (st, bgDetInit) (pre ++ c :: post)).1 key = some u := by
  have hsplit : bgProcessChunks key (st, bgDetInit) (pre ++ c :: post) =
      bgProcessChunks key (bgProcessOutput key (st, bgDetInit) c) post := by
    unfold bgProcessChunks
    rw [List.foldl_append]
    rw [show List.foldl (bgProcessOutput key) (st, bgDetInit) pre = (st, bgDetInit) from
      bgChunks_no_match key (st, bgDetInit) pre hpre]
    rfl
  have hstep : bgProcessOutput key (st, bgDetInit) c =
      ({ st with detectedUrls := mapSet st.detectedUrls key u },
       { urlFound := true, assignments := 1 }) := by
    simp [bgProcessOutput, bgDetInit, hc]
  have hfin : bgProcessChunks key (st, bgDetInit) (pre ++ c :: post) =
      ({ st with detectedUrls := mapSet st.detectedUrls key u },
       { urlFound := true, assignments := 1 }) := by
    rw [hsplit, hstep]
    exact bgChunks_after_found key _ post rfl
  refine ⟨hfin, ?_⟩
  rw [hfin]
  simp [getUrl, mapGet_set_self]

/-- Witness for C5: two later chunks both containing URLs are ignored;
exactly one assignment happens and it stores the first URL. -/
theorem urlDetection_latch_once_witness :
    bgProcessChunks "/home/u/proj" (stEmpty, bgDetInit)
        ["starting dev server", "Local: http://localhost:3000/",
         "also on http://localhost:4000", "ready on 127.0.0.1:8080"] =
      ({ stEmpty with
          detectedUrls := mapSet stEmpty.detectedUrls "/home/u/proj"
            "http://localhost:3000" },
       { urlFound := true, assignments := 1 }) ∧
    getUrl (bgProcessChunks "/home/u/proj" (stEmpty, bgDetInit)
        ["starting dev server", "Local: http://localhost:3000/",
         "also on http://localhost:4000", "ready on 127.0.0.1:8080"]).1
      "/home/u/proj" = some "http://localhost:3000" :=
  urlDetection_latch_once "/home/u/proj" stEmpty ["starting dev server"]
    ["also on http://localhost:4000", "ready on 127.0.0.1:8080"]
    "Local: http://localhost:3000/" "http://localhost:3000"
    (by decide) (by decide)

/-- Output chunks without a matching URL leave a hybrid detector
session unchanged. -/
theorem hybridRun_no_match (key : String) (s : PMState × HybridDetState)
    (chunks : List String) (h : ∀ x ∈ chunks, extractUrl x = none) :
    hybridRun key s (chunks.map DetEvent.output) = s := by
  induction chunks with
  | nil => rfl
  | cons hd tl ih =>
    have hhd : extractUrl hd = none := h hd (List.mem_cons_self hd tl)
    have hs : hybridStep key s (DetEvent.output hd) = s := by
      by_cases hf : s.2.urlFound
      · simp [hybridStep, hf]
      · simp [hybridStep, hf, hhd]
    calc hybridRun key s (List.map DetEvent.output (hd :: tl))
        = hybridRun key (hybridStep key s (DetEvent.output hd))
            (List.map DetEvent.output tl) := rfl
      _ = hybridRun key s (List.map DetEvent.output tl) := by rw [hs]
      _ = s := ih (fun x hx => h x (List.mem_cons_of_mem hd hx))

/-- C8: the 30 s URL-detection timeout exists only in terminal-hybrid
mode.  When the hybrid start succeeds, its result is already a plain
success (the timeout is never reported as a `startDevServer` failure);
if no chunk yields a URL before the timer fires, the timeout kills the
detector process, the detected URL for the key remains absent and the
registry state is untouched; and in background mode there is no timer:
a timeout event changes nothing. -/
theorem hybrid_timeout_silent (env : StartEnv) (st : PMState) (p c : String)
    (chunks : List String)
    (hterm : (launchInTerminal env p c).1.success = true)
    (hdet : ∃ h, env.detectorSpawn = Except.ok h)
    (hh : mapHas st.processes p = false)
    (hnm : ∀ x ∈ chunks, extractUrl x = none)
    (hu : getUrl st p = none) :
    (startDevServer env st p c true true).1 =
      { success := true, error := none, url := none } ∧
    (startDevServer env st p c true true).2.2 = true ∧
    hybridRun p (st, hybridDetInit) (chunks.map DetEvent.output ++ [DetEvent.timeout]) =
      (st, { urlFound := false, detectorKilled := true, timerActive := false }) ∧
    getUrl (hybridRun p (st, hybridDetInit)
        (chunks.map DetEvent.output ++ [DetEvent.timeout])).1 p = none ∧
    (∀ s : PMState × BgDetState, bgStep p s DetEvent.timeout = s) ∧
    urlDetectionTimeout = 30000 := by
  obtain ⟨hd, hds⟩ := hdet
  have hrun : hybridRun p (st, hybridDetInit)
      (chunks.map DetEvent.output ++ [DetEvent.timeout]) =
      (st, { urlFound := false, detectorKilled := true, timerActive := false }) := by
    unfold hybridRun
    rw [List.foldl_append]
    rw [show List.foldl (hybridStep p) (st, hybridDetInit) (chunks.map DetEvent.output)
          = (st, hybridDetInit) from hybridRun_no_match p (st, hybridDetInit) chunks hnm]
    simp [hybridStep, hybridDetInit]
  refine ⟨?_, ?_, hrun, ?_, fun s => rfl, rfl⟩
  · simp [startDevServer, hh, hterm, hds]
  · simp [startDevServer, hh, hterm, hds]
  · rw [hrun]
    exact hu

def envTermOk : StartEnv :=
  { platform := "linux", termSpawnThrows := none,
    linuxTermThrows := fun _ => false,
    bgSpawn := .ok handleA,
    detectorSpawn := .ok { pid := some 43, killed := false } }

/-- Witness for C8: a hybrid session whose only output never matches,
followed by the timer firing. -/
theorem hybrid_timeout_silent_witness :
    (startDevServer envTermOk stEmpty "/home/u/proj" "npm run dev" true true).1 =
      { success := true, error := none, url := none } ∧
    (startDevServer envTermOk stEmpty "/home/u/proj" "npm run dev" true true).2.2 = true ∧
    hybridRun "/home/u/proj" (stEmpty, hybridDetInit)
        (["compiling..."].map DetEvent.output ++ [DetEvent.timeout]) =
      (stEmpty, { urlFound := false, detectorKilled := true, timerActive := false }) ∧
    getUrl (hybridRun "/home/u/proj" (stEmpty, hybridDetInit)
        (["compiling..."].map DetEvent.output ++ [DetEvent.timeout])).1
      "/home/u/proj" = none ∧
    (∀ s : PMState × BgDetState, bgStep "/home/u/proj" s DetEvent.timeout = s) ∧
    urlDetectionTimeout = 30000 :=
  hybrid_timeout_silent envTermOk stEmpty "/home/u/proj" "npm run dev" ["compiling..."]
    (by decide) ⟨{ pid := some 43, killed := false }, rfl⟩ (by decide) (by decide) rfl

/-- Lemma: `launchInTerminal` always returns a structured result. -/
theorem launchInTerminal_structured (env : StartEnv) (p c : String) :
    ((launchInTerminal env p c).1.success = true ∧
      (launchInTerminal env p c).1.error = none) ∨
    ((launchInTerminal env p c).1.success = false ∧
      ∃ m, (launchInTerminal env p c).1.error = some m) := by
  unfold launchInTerminal
  by_cases h1 : env.platform = "win32"
  · cases ht : env.termSpawnThrows <;> simp [h1, ht]
  · by_cases h2 : env.platform = "darwin"
    · cases ht : env.termSpawnThrows <;> simp [h1, h2, ht]
    · cases hf : (linuxTerminals p c).find? (fun t => !env.linuxTermThrows t.cmd) <;>
        simp [h1, h2, hf]

theorem killUnix_structured (env : OsEnv) (st : PMState) (p : String) :
    ((killUnixProcess env st p).1.success = true ∧
      (killUnixProcess env st p).1.error = none) ∨
    ((killUnixProcess env st p).1.success = false ∧
      ∃ m, (killUnixProcess env st p).1.error = some m) := by
  unfold killUnixProcess
  split
  · right; simp
  · dsimp only
    split
    · right; simp
    · left; simp

theorem killWin_structured (env : OsEnv) (st : PMState) (p : String) :
    ((killWindowsProcess env st p).1.success = true ∧
      (killWindowsProcess env st p).1.error = none) ∨
    ((killWindowsProcess env st p).1.success = false ∧
      ∃ m, (killWindowsProcess env st p).1.error = some m) := by
  unfold killWindowsProcess
  split
  · right; simp
  · split
    · right; simp
    · split
      · right; simp
      · dsimp only
        split
        · right; simp
        · split
          · left; simp
          · right; simp

theorem killSweep_structured (env : OsEnv) (st : PMState) (p : String) :
    ((killSweep env st p).1.success = true ∧ (killSweep env st p).1.error = none) ∨
    ((killSweep env st p).1.success = false ∧
      ∃ m, (killSweep env st p).1.error = some m) := by
  unfold killSweep
  split
  · simpa using killWin_structured env st p
  · simpa using killUnix_structured env st p

/-- C9: every public operation recovers the whole error taxonomy
locally: `startDevServer` and `killProcess` always return a structured
result — success with no error message, or failure with one — for every
environment, including those where every spawn or OS query throws; and
`isProcessRunning` returns `false` when the OS queries throw and no
live handle is tracked.  (All model operations are total functions, so
no exception passes the public boundary.) -/
theorem publicApi_structured_results :
    (∀ (env : StartEnv) (st : PMState) (p c : String) (ob ot : Bool),
      ((startDevServer env st p c ob ot).1.success = true ∧
        (startDevServer env st p c ob ot).1.error = none) ∨
      ((startDevServer env st p c ob ot).1.success = false ∧
        ∃ m, (startDevServer env st p c ob ot).1.error = some m)) ∧
    (∀ (env : OsEnv) (st : PMState) (p : String),
      ((killProcess env st p).1.success = true ∧
        (killProcess env st p).1.error = none) ∨
      ((killProcess env st p).1.success = false ∧
        ∃ m, (killProcess env st p).1.error = some m)) ∧
    (∀ (env : OsEnv) (st : PMState) (p e1 e2 : String),
      env.unixPs = Except.error e1 → env.winPs = Except.error e2 →
      mapGet st.processes p = none → isProcessRunning env st p = false) := by
  refine ⟨?_, ?_, ?_⟩
  · intro env st p c ob ot
    by_cases hh : mapHas st.processes p
    · right; simp [startDevServer, hh]
    · cases ot with
      | false =>
        cases henv : env.bgSpawn with
        | error e => right; simp [startDevServer, hh, henv]
        | ok hd =>
          by_cases hp : hd.pid = none
          · right; simp [startDevServer, hh, henv, hp]
          · left; simp [startDevServer, hh, henv, hp]
      | true =>
        rcases launchInTerminalStructured : launchInTerminal_structured env p c with
          ⟨hs, he⟩ | ⟨hs, m, he⟩
        · cases ob with
          | false => left; simp [startDevServer, hh, hs]
          | true =>
            cases henv : env.detectorSpawn with
            | error e => right; simp [startDevServer, hh, hs, henv]
            | ok hd => left; simp [startDevServer, hh, hs, henv]
        · right; simp [startDevServer, hh, hs, he]
  · intro env st p
    unfold killProcess
    split
    · split
      · split
        · right; simp
        · exact killSweep_structured env _ p
      · exact killSweep_structured env st p
    · exact killSweep_structured env st p
  · intro env st p e1 e2 hu hw hg
    by_cases hp : env.platform = "win32"
    · simp [isProcessRunning, hg, hp, isWindowsProcessRunning, hw]
    · simp [isProcessRunning, hg, hp, isUnixProcessRunning, hu]

def envAllThrow : OsEnv :=
  { platform := "linux", handleKillThrows := none,
    unixPs := .error "spawn ps ENOENT", winPs := .error "spawn powershell ENOENT",
    winParse := fun _ => none,
    unixKillOk := fun _ => false, winKillOk := fun _ => false }

/-- Witness for C9: with every OS query throwing and nothing tracked,
the liveness query recovers the error and reports `false`. -/
theorem publicApi_structured_results_witness :
    isProcessRunning envAllThrow stEmpty "/home/u/proj" = false :=
  publicApi_structured_results.2.2 envAllThrow stEmpty "/home/u/proj"
    "spawn ps ENOENT" "spawn powershell ENOENT" rfl rfl rfl

/-- The Unix sweep's verdict does not depend on the registry state or
the key. -/
theorem killUnix_result_const (env : OsEnv) (st st2 : PMState) (p p2 : String) :
    (killUnixProcess env st p).1 = (killUnixProcess env st2 p2).1 := by
  unfold killUnixProcess
  cases henv : env.unixPs with
  | error e => rfl
  | ok s =>
    dsimp only
    split <;> rfl

/-- The Windows sweep's verdict does not depend on the registry state. -/
theorem killWin_result_const (env : OsEnv) (st st2 : PMState) (p : String) :
    (killWindowsProcess env st p).1 = (killWindowsProcess env st2 p).1 := by
  unfold killWindowsProcess
  cases henv : env.winPs with
  | error e => rfl
  | ok s =>
    dsimp only
    split
    · rfl
    · cases hp : env.winParse s with
      | none => rfl
      | some procs =>
        dsimp only
        split
        · rfl
        · split <;> rfl

theorem killSweep_result_const (env : OsEnv) (st st2 : PMState) (p : String) :
    (killSweep env st p).1 = (killSweep env st2 p).1 := by
  unfold killSweep
  split
  · exact killWin_result_const env st st2 p
  · exact killUnix_result_const env st st2 p p

/-- When `ChildProcess.kill` does not throw, the verdict of
`killProcess` is exactly the sweep's verdict. -/
theorem killProcess_result_sweep (env : OsEnv) (st : PMState) (p : String)
    (hk : env.handleKillThrows = none) :
    (killProcess env st p).1 = (killSweep env st p).1 := by
  unfold killProcess
  split
  · split
    · rw [hk]
      exact killSweep_result_const env _ st p
    · rfl
  · rfl

def stLiveHandle : PMState :=
  { processes := [("/home/u/proj", handleA)], detectedUrls := [] }

def envSweepEmpty : OsEnv :=
  { platform := "linux", handleKillThrows := none,
    unixPs := .error "Command failed: ps aux | grep node",
    winPs := .error "not used on this platform",
    winParse := fun _ => none,
    unixKillOk := fun _ => true, winKillOk := fun _ => true }

/-- C2 counterexample: the registry holds a live tracked handle for the
key, yet — because the `ps` scan finds nothing — `killProcess` returns
the `NoMatchingProcess` failure, where the claim promises success
whenever step 1 had a live handle even if the sweep finds nothing. -/
theorem killProcess_live_handle_cex :
    mapGet stLiveHandle.processes "/home/u/proj" = some handleA ∧
    handleA.killed = false ∧
    (killProcess envSweepEmpty stLiveHandle "/home/u/proj").1.success = false ∧
    (killProcess envSweepEmpty stLiveHandle "/home/u/proj").1.error =
      some unixNoMatchMsg := by
  refine ⟨by decide, by decide, by decide, by decide⟩

/-- C2 amended: the verdict of `killProcess` is exactly the OS sweep's
verdict — a live tracked handle is killed and removed in step 1 but
never contributes to success.  On non-Windows platforms the call
succeeds iff the `ps` scan returned output that is nonempty after
trimming (individual kill outcomes never affect the verdict: the
`unixKillOk` oracle is irrelevant), and every failure carries the
`NoMatchingProcess` message; on Windows, matched PIDs of which at least
one is successfully killed yield overall success even if other kills
failed. -/
theorem killProcess_sweep_verdict :
    (∀ (env : OsEnv) (st : PMState) (p : String),
      env.platform ≠ "win32" → env.handleKillThrows = none →
      (((killProcess env st p).1.success = true ↔
          ∃ s, env.unixPs = Except.ok s ∧ strTrim s ≠ "") ∧
        ((killProcess env st p).1.success = false →
          (killProcess env st p).1.error = some unixNoMatchMsg))) ∧
    (∀ (env : OsEnv) (st : PMState) (p : String) (f g : String → Bool),
      killProcess { env with unixKillOk := f } st p =
        killProcess { env with unixKillOk := g } st p) ∧
    (∀ (env : OsEnv) (st : PMState) (p stdout : String) (procs : List WinProc),
      env.platform = "win32" → env.handleKillThrows = none →
      env.winPs = Except.ok stdout → strTrim stdout ≠ "" →
      env.winParse stdout = some procs →
      (winMatchedPids procs p).filter env.winKillOk ≠ [] →
      (killProcess env st p).1 = { success := true, error := none }) := by
  refine ⟨?_, ?_, ?_⟩
  · intro env st p hpl hk
    have hred : (killProcess env st p).1 = (killUnixProcess env st p).1 := by
      rw [killProcess_result_sweep env st p hk]
      unfold killSweep
      rw [if_neg hpl]
    rw [hred]
    cases henv : env.unixPs with
    | error e =>
      refine ⟨?_, ?_⟩
      · constructor
        · intro hsucc; simp [killUnixProcess, henv] at hsucc
        · rintro ⟨s, hs, -⟩; cases hs
      · intro _; simp [killUnixProcess, henv]
    | ok s =>
      by_cases htrim : strTrim s = ""
      · refine ⟨?_, ?_⟩
        · constructor
          · intro hsucc; simp [killUnixProcess, henv, htrim] at hsucc
          · rintro ⟨s2, hs2, htrim2⟩
            cases hs2; exact absurd htrim htrim2
        · intro _; simp [killUnixProcess, henv, htrim]
      · have hlen : splitLines (strTrim s).data ≠ [] := splitLines_ne_nil _
        have hunix : (killUnixProcess env st p).1 = { success := true, error := none } := by
          simp [killUnixProcess, henv, htrim, List.length_eq_zero,
            List.map_eq_nil_iff, hlen]
        refine ⟨?_, ?_⟩
        · constructor
          · intro _; exact ⟨s, rfl, htrim⟩
          · intro _; rw [hunix]
        · intro hfail; rw [hunix] at hfail; simp at hfail
  · intro env st p f g
    obtain ⟨pl, hk, ups, wps, wpa, uko, wko⟩ := env
    rfl
  · intro env st p stdout procs hpl hk hps htrim hparse hkill
    have hpids : ¬ ((winMatchedPids procs p).length = 0) := by
      rw [List.length_eq_zero]
      intro h
      rw [h] at hkill
      exact hkill rfl
    have hkilled : ((winMatchedPids procs p).filter env.winKillOk).length > 0 := by
      cases h : (winMatchedPids procs p).filter env.winKillOk with
      | nil => exact absurd h hkill
      | cons a l => simp
    rw [killProcess_result_sweep env st p hk]
    unfold killSweep
    rw [if_pos hpl]
    show (killWindowsProcess env st p).1 = _
    simp [killWindowsProcess, hps, htrim, hparse, hpids, hkilled]

def envSweepFinds : OsEnv :=
  { platform := "linux", handleKillThrows := none,
    unixPs := .ok "u 202 node /home/u/proj/node_modules/.bin/vite",
    winPs := .error "not used on this platform",
    winParse := fun _ => none,
    unixKillOk := fun _ => false, winKillOk := fun _ => true }

/-- Witness for C2 (amended): the sweep finds one line, so the call
succeeds even though every individual kill fails. -/
theorem killProcess_sweep_verdict_witness :
    (killProcess envSweepFinds stLiveHandle "/home/u/proj").1.success = true :=
  ((killProcess_sweep_verdict.1 envSweepFinds stLiveHandle "/home/u/proj"
      (by decide) rfl).1).mpr
    ⟨"u 202 node /home/u/proj/node_modules/.bin/vite", rfl, by decide⟩

theorem killUnix_urls (env : OsEnv) (st : PMState) (p : String) :
    (killUnixProcess env st p).2.1.detectedUrls = st.detectedUrls := by
  unfold killUnixProcess
  cases henv : env.unixPs with
  | error e => rfl
  | ok s => dsimp only; split <;> rfl

theorem killWin_urls (env : OsEnv) (st : PMState) (p : String) :
    (killWindowsProcess env st p).2.1.detectedUrls = st.detectedUrls := by
  unfold killWindowsProcess
  cases henv : env.winPs with
  | error e => rfl
  | ok s =>
    dsimp only
    split
    · rfl
    · cases hp : env.winParse s with
      | none => rfl
      | some procs =>
        dsimp only
        split
        · rfl
        · split <;> rfl

theorem killSweep_urls (env : OsEnv) (st : PMState) (p : String) :
    (killSweep env st p).2.detectedUrls = st.detectedUrls := by
  unfold killSweep
  split
  · exact killWin_urls env st p
  · exact killUnix_urls env st p

theorem killUnix_success_deletes (env : OsEnv) (st : PMState) (p : String) :
    (killUnixProcess env st p).1.success = true →
    mapGet (killUnixProcess env st p).2.1.processes p = none := by
  unfold killUnixProcess
  cases henv : env.unixPs with
  | error e => intro h; simp at h
  | ok s =>
    dsimp only
    split
    · intro h; simp at h
    · intro _; exact mapGet_delete_self _ p

theorem killWin_success_deletes (env : OsEnv) (st : PMState) (p : String) :
    (killWindowsProcess env st p).1.success = true →
    mapGet (killWindowsProcess env st p).2.1.processes p = none := by
  unfold killWindowsProcess
  cases henv : env.winPs with
  | error e => intro h; simp at h
  | ok s =>
    dsimp only
    split
    · intro h; simp at h
    · cases hp : env.winParse s with
      | none => intro h; simp at h
      | some procs =>
        dsimp only
        split
        · intro h; simp at h
        · split
          · intro _; exact mapGet_delete_self _ p
          · intro h; simp at h

theorem killSweep_success_deletes (env : OsEnv) (st : PMState) (p : String) :
    (killSweep env st p).1.success = true →
    mapGet (killSweep env st p).2.processes p = none := by
  unfold killSweep
  split
  · exact killWin_success_deletes env st p
  · exact killUnix_success_deletes env st p

def stUrlOnly : PMState :=
  { processes := [], detectedUrls := [("/home/u/proj", "http://localhost:3000")] }

/-- C3 counterexample: a successful stop of a terminal-launched session
(no tracked handle; the `ps` sweep finds and kills the process) leaves
the detected URL in place — `getUrl` still returns it afterwards —
where the claim says the whole entry, URL included, is destroyed. -/
theorem killProcess_keeps_url_cex :
    (killProcess envSweepFinds stUrlOnly "/home/u/proj").1.success = true ∧
    getUrl (killProcess envSweepFinds stUrlOnly "/home/u/proj").2 "/home/u/proj" =
      some "http://localhost:3000" :=
  ⟨by decide, by decide⟩

/-- C3 amended: a successful `killProcess` removes the tracked-handle
entry for the key, but `killProcess` itself never touches the
detected-URL map — on every path the URL map is returned unchanged, so
a previously detected URL survives a successful stop.  The URL entry is
removed only by the `exit`/`error` handlers of a background-launched
process, which delete both the handle and the URL. -/
theorem killProcess_url_persistence :
    (∀ (env : OsEnv) (st : PMState) (p : String),
      (killProcess env st p).2.detectedUrls = st.detectedUrls) ∧
    (∀ (env : OsEnv) (st : PMState) (p : String),
      (killProcess env st p).1.success = true →
      mapGet (killProcess env st p).2.processes p = none) ∧
    (∀ (st : PMState) (p : String),
      mapGet (onBgExit st p).processes p = none ∧
      mapGet (onBgExit st p).detectedUrls p = none) := by
  refine ⟨?_, ?_, ?_⟩
  · intro env st p
    unfold killProcess
    split
    · split
      · split
        · rfl
        · exact killSweep_urls env _ p
      · exact killSweep_urls env st p
    · exact killSweep_urls env st p
  · intro env st p
    unfold killProcess
    split
    · split
      · split
        · intro h; simp at h
        · exact killSweep_success_deletes env _ p
      · exact killSweep_success_deletes env st p
    · exact killSweep_success_deletes env st p
  · intro st p
    exact ⟨mapGet_delete_self _ p, mapGet_delete_self _ p⟩

/-- Witness for C3 (amended): after a successful stop the URL map is
unchanged and the tracked handle is gone. -/
theorem killProcess_url_persistence_witness :
    (killProcess envSweepFinds stUrlOnly "/home/u/proj").2.detectedUrls =
      stUrlOnly.detectedUrls ∧
    mapGet (killProcess envSweepFinds stLiveHandle "/home/u/proj").2.processes
      "/home/u/proj" = none :=
  ⟨killProcess_url_persistence.1 envSweepFinds stUrlOnly "/home/u/proj",
   killProcess_url_persistence.2.1 envSweepFinds stLiveHandle "/home/u/proj"
     (by decide)⟩

end KodeDock
